import Mathlib

/-!
Shallow embedding of the task-list composable (`useTarefas`) of the
todo-vue repository, together with theorems checking the claims of the
specification against it.

The JavaScript source keeps a reactive array `tarefas` of task records
`{ id, titulo, concluida }`, a filter ref `filtro`, a computed view
`tarefasFiltradas`, the operations `adicionarTarefa` / `removerTarefa`,
and a deep `watch` that serializes the whole array to
`localStorage.setItem('tarefas', JSON.stringify(...))` on every mutation.
Initialization reads `JSON.parse(localStorage.getItem('tarefas') || '[]')`.

Machine-level conventions of the embedding:
* a task id (`Date.now()` in the source) is a `Nat`;
* JavaScript string truthiness (`if (titulo.trim())`) is `trim ≠ ""`;
* `Array.prototype.findIndex` returning `-1` is `Option Nat` with `none`;
* `Array.prototype.splice(i, 1)` is `take i ++ drop (i+1)`;
* `localStorage.getItem` returning `null` is `Option String` with `none`;
* a thrown `SyntaxError` of `JSON.parse` is `Except.error`.
-/

namespace TodoVue

/-- One task record as pushed by `adicionarTarefa`:
`{ id: Date.now(), titulo, concluida: false }`. -/
structure Tarefa where
  id : Nat
  titulo : String
  concluida : Bool
deriving DecidableEq, Repr

/-- The three values of the `filtro` ref: `'todas'`, `'ativas'`, `'concluidas'`. -/
inductive Filtro where
  | todas
  | ativas
  | concluidas
deriving DecidableEq, Repr

/-- The computed `tarefasFiltradas`: a switch on the current filter;
`'ativas'` keeps tasks with `!tarefa.concluida`, `'concluidas'` keeps tasks
with `tarefa.concluida`, the default case returns the array itself. -/
def tarefasFiltradas (filtro : Filtro) (tarefas : List Tarefa) : List Tarefa :=
  match filtro with
  | .ativas => tarefas.filter (fun tarefa => !tarefa.concluida)
  | .concluidas => tarefas.filter (fun tarefa => tarefa.concluida)
  | .todas => tarefas

/-- The ECMAScript WhiteSpace and LineTerminator code points stripped by
`String.prototype.trim`. -/
def espacoJS (c : Char) : Bool :=
  c.toNat = 9 || c.toNat = 10 || c.toNat = 11 || c.toNat = 12 || c.toNat = 13 ||
  c.toNat = 32 || c.toNat = 160 || c.toNat = 0x1680 ||
  (0x2000 ≤ c.toNat && c.toNat ≤ 0x200a) ||
  c.toNat = 0x2028 || c.toNat = 0x2029 || c.toNat = 0x202f ||
  c.toNat = 0x205f || c.toNat = 0x3000 || c.toNat = 0xfeff

/-- Model of `String.prototype.trim`: remove leading and trailing JS whitespace. -/
def jsTrim (s : String) : String :=
  ⟨((s.data.dropWhile espacoJS).reverse.dropWhile espacoJS).reverse⟩

/-- Operation `adicionarTarefa(titulo)`: if `titulo.trim()` is truthy (non-empty),
push `{ id: Date.now(), titulo, concluida: false }` — note the source pushes
the original `titulo`, not `titulo.trim()`.  The clock value `now` is the
`Date.now()` reading at the call. -/
def adicionarTarefa (now : Nat) (titulo : String) (tarefas : List Tarefa) :
    List Tarefa :=
  if jsTrim titulo ≠ "" then
    tarefas ++ [{ id := now, titulo := titulo, concluida := false }]
  else
    tarefas

/-- Model of `Array.prototype.findIndex(p)`: index of the first element satisfying
`p`, with `none` standing for the JavaScript result `-1`. -/
def acharIndice (p : Tarefa → Bool) : List Tarefa → Option Nat
  | [] => none
  | t :: ts => if p t then some 0 else (acharIndice p ts).map (· + 1)

/-- Operation `removerTarefa(id)`: `findIndex(tarefa => tarefa.id === id)`; when the
index is not `-1`, `splice(indice, 1)`. -/
def removerTarefa (id : Nat) (tarefas : List Tarefa) : List Tarefa :=
  match acharIndice (fun tarefa => tarefa.id == id) tarefas with
  | some indice => tarefas.take indice ++ tarefas.drop (indice + 1)
  | none => tarefas

/-! ### Persistence: `JSON.stringify` / `JSON.parse` on task arrays

The composable persists through the platform built-ins
`JSON.stringify(novasTarefas)` and
`JSON.parse(localStorage.getItem('tarefas') || '[]')`.  `serializa` below
reproduces `JSON.stringify` exactly on arrays of task records (including
its string-escaping rules); `desserializa` models `JSON.parse` restricted
to the canonical grammar `JSON.stringify` emits for task arrays — on any
other input it answers `none`, standing for a thrown `SyntaxError` or for
a parsed value that is not a task array. -/

/-- Lower-case hexadecimal digit, as emitted in `\u00xx` escapes. -/
def hexDigito (n : Nat) : Char :=
  if n < 10 then Char.ofNat (48 + n) else Char.ofNat (87 + n)

/-- The escaping `JSON.stringify` applies inside a string literal:
`"` and `\` are backslash-escaped, the control characters BS, TAB, LF, FF,
CR get their short escapes, the remaining code points below 32 become
`\u00xx`, and every other character is emitted as itself. -/
def escapaChar (c : Char) : List Char :=
  if c = '"' then ['\\', '"']
  else if c = '\\' then ['\\', '\\']
  else if c = '\x08' then ['\\', 'b']
  else if c = '\t' then ['\\', 't']
  else if c = '\n' then ['\\', 'n']
  else if c = '\x0c' then ['\\', 'f']
  else if c = '\r' then ['\\', 'r']
  else if c.toNat < 32 then
    ['\\', 'u', '0', '0', hexDigito (c.toNat / 16), hexDigito (c.toNat % 16)]
  else [c]

def escapaLista : List Char → List Char
  | [] => []
  | c :: cs => escapaChar c ++ escapaLista cs

/-- Decimal digits of `n`, most significant first, as `JSON.stringify`
prints a natural number. -/
def digitos (n : Nat) : List Char :=
  if n < 10 then [Char.ofNat (48 + n)]
  else digitos (n / 10) ++ [Char.ofNat (48 + n % 10)]
decreasing_by exact Nat.div_lt_self (by omega) (by omega)

/-- Serialization of one task record: `\x7b"id":<n>,"titulo":"<escaped>",
"concluida":<bool>\x7d`, keys in property-creation order. -/
def serializaTarefa (t : Tarefa) : List Char :=
  "\x7b\"id\":".data ++ digitos t.id ++
  ",\"titulo\":\"".data ++ escapaLista t.titulo.data ++
  "\",\"concluida\":".data ++
  (if t.concluida then "true".data else "false".data) ++ "\x7d".data

def serializaLista : List Tarefa → List Char
  | [] => []
  | [t] => serializaTarefa t
  | t :: ts => serializaTarefa t ++ ',' :: serializaLista ts

/-- Serialization of the whole task array, as `JSON.stringify` prints it. -/
def serializa (l : List Tarefa) : String :=
  ⟨'[' :: (serializaLista l ++ [']'])⟩

def valorHex (c : Char) : Nat :=
  if c.toNat ≥ 97 then c.toNat - 87 else c.toNat - 48

def desescapaChar (e : Char) : Option Char :=
  if e = '"' then some '"'
  else if e = '\\' then some '\\'
  else if e = '/' then some '/'
  else if e = 'b' then some '\x08'
  else if e = 't' then some '\t'
  else if e = 'n' then some '\n'
  else if e = 'f' then some '\x0c'
  else if e = 'r' then some '\r'
  else none

/-- Parse the body of a JSON string literal up to and including the closing
quote, undoing `escapaChar`. -/
def analisaCorpoString : List Char → Option (List Char × List Char)
  | [] => none
  | c :: cs =>
    if c = '"' then some ([], cs)
    else if c = '\\' then
      match cs with
      | [] => none
      | e :: cs2 =>
        if e = 'u' then
          match cs2 with
          | h1 :: h2 :: h3 :: h4 :: cs3 =>
            match analisaCorpoString cs3 with
            | some (corpo, resto) =>
                some (Char.ofNat ((((valorHex h1 * 16 + valorHex h2) * 16 +
                  valorHex h3) * 16 + valorHex h4)) :: corpo, resto)
            | none => none
          | _ => none
        else
          match desescapaChar e with
          | some d =>
            match analisaCorpoString cs2 with
            | some (corpo, resto) => some (d :: corpo, resto)
            | none => none
          | none => none
    else
      match analisaCorpoString cs with
      | some (corpo, resto) => some (c :: corpo, resto)
      | none => none

/-- Consume an expected literal piece of the grammar. -/
def tiraLiteral : List Char → List Char → Option (List Char)
  | [], resto => some resto
  | _ :: _, [] => none
  | p :: ps, c :: cs => if c = p then tiraLiteral ps cs else none

def analisaNatAux : List Char → Nat → Nat × List Char
  | [], acc => (acc, [])
  | c :: cs, acc =>
    if c.isDigit then analisaNatAux cs (acc * 10 + (c.toNat - 48))
    else (acc, c :: cs)

/-- Parse a decimal natural number (at least one digit, maximal run). -/
def analisaNat (entrada : List Char) : Option (Nat × List Char) :=
  match entrada with
  | [] => none
  | c :: _ => if c.isDigit then some (analisaNatAux entrada 0) else none

def analisaBool (entrada : List Char) : Option (Bool × List Char) :=
  match tiraLiteral "true".data entrada with
  | some resto => some (true, resto)
  | none =>
    match tiraLiteral "false".data entrada with
    | some resto => some (false, resto)
    | none => none

/-- Parse one serialized task record. -/
def analisaTarefa (entrada : List Char) : Option (Tarefa × List Char) := do
  let resto1 ← tiraLiteral "\x7b\"id\":".data entrada
  let (id, resto2) ← analisaNat resto1
  let resto3 ← tiraLiteral ",\"titulo\":\"".data resto2
  let (titulo, resto4) ← analisaCorpoString resto3
  let resto5 ← tiraLiteral ",\"concluida\":".data resto4
  let (concluida, resto6) ← analisaBool resto5
  let resto7 ← tiraLiteral "\x7d".data resto6
  return (⟨id, ⟨titulo⟩, concluida⟩, resto7)

/-- Parse a comma-separated non-empty sequence of task records followed by
the closing bracket.  The fuel argument only bounds recursion depth; any
fuel at least the number of records is enough. -/
def analisaItens : Nat → List Char → Option (List Tarefa × List Char)
  | 0, _ => none
  | combustivel + 1, entrada =>
    match analisaTarefa entrada with
    | none => none
    | some (t, resto) =>
      match resto with
      | ']' :: resto2 => some ([t], resto2)
      | ',' :: resto2 =>
        match analisaItens combustivel resto2 with
        | some (ts, resto3) => some (t :: ts, resto3)
        | none => none
      | _ => none

/-- Model of `JSON.parse`, faithful on two regions: on the canonical
task-array grammar emitted by `serializa` (including `"[]"`) it returns the
parsed collection exactly as `JSON.parse` does, and on strings that are not
valid JSON at all (such as `"x"`) its `none` models the thrown
`SyntaxError`.  On valid JSON outside the canonical grammar — whitespace
variants, reordered keys, non-array values — `JSON.parse` succeeds with
some value while this restricted parser answers `none`, so theorems
evaluate `desserializa` only on the two faithful regions. -/
def desserializa (s : String) : Option (List Tarefa) :=
  match s.data with
  | '[' :: resto =>
    if resto = [']'] then some []
    else
      match analisaItens resto.length resto with
      | some (ts, resto2) => if resto2 = [] then some ts else none
      | none => none
  | _ => none

/-! ### The store with its persistence side effects

`Store` packages the observable state of one `useTarefas()` instance: the
reactive array, the filter ref, and the value held under the `'tarefas'`
key of `localStorage`.  The deep `watch` of the source fires exactly when
the array is mutated and then runs
`localStorage.setItem('tarefas', JSON.stringify(novasTarefas))`; each
operation below folds that write into its own effect. -/

structure Store where
  tarefas : List Tarefa
  filtro : Filtro
  armazenado : Option String
deriving DecidableEq, Repr

/-- Expression `localStorage.getItem('tarefas') || '[]'`: JavaScript `||` replaces the
falsy values `null` and `""` by `'[]'`; every other string passes through. -/
def ouArrayVazio : Option String → String
  | none => "[]"
  | some s => if s = "" then "[]" else s

/-- Initialization of `useTarefas`:
`reactive(JSON.parse(localStorage.getItem('tarefas') || '[]'))`, filter
defaulted to `'todas'`.  A thrown `SyntaxError` propagates out of the
composable, modelled as `Except.error`; the `watch` does not fire at
setup, so the stored value is left untouched.  Because `desserializa` is
only faithful on canonical data and on JSON-invalid strings, theorems
instantiate the stored value only there: on parseable non-canonical data
the source would initialize successfully where this model errors, and no
theorem asserts anything about that region. -/
def Store.init (armazenado : Option String) : Except String Store :=
  match desserializa (ouArrayVazio armazenado) with
  | some l => .ok { tarefas := l, filtro := .todas, armazenado := armazenado }
  | none => .error "SyntaxError"

/-- Operation `adicionarTarefa` at store level: a successful push mutates the array,
so the deep watch fires and rewrites the stored value; when the trimmed
title is empty nothing is mutated and the watch does not fire. -/
def Store.adicionar (now : Nat) (titulo : String) (s : Store) : Store :=
  if jsTrim titulo ≠ "" then
    let novas := s.tarefas ++ [{ id := now, titulo := titulo, concluida := false }]
    { s with tarefas := novas, armazenado := some (serializa novas) }
  else s

/-- Operation `removerTarefa` at store level: a splice mutates the array and the deep
watch rewrites the stored value; with index `-1` nothing is mutated. -/
def Store.remover (id : Nat) (s : Store) : Store :=
  match acharIndice (fun tarefa => tarefa.id == id) s.tarefas with
  | some indice =>
    let novas := s.tarefas.take indice ++ s.tarefas.drop (indice + 1)
    { s with tarefas := novas, armazenado := some (serializa novas) }
  | none => s

/-- Modelled from the spec: the presentation layer (components that are not
part of the composable's source) flips one task's `concluida` field in
place — "an external mutation the store must observe".  The first task
carrying the id is the one toggled. -/
def alternarConcluida (id : Nat) : List Tarefa → List Tarefa
  | [] => []
  | t :: ts =>
    if t.id == id then { t with concluida := !t.concluida } :: ts
    else t :: alternarConcluida id ts

/-- Modelled from the spec: toggling `concluida` through the store; the
deep watch observes the in-place mutation and rewrites the stored value;
when no task carries the id nothing is mutated. -/
def Store.alternar (id : Nat) (s : Store) : Store :=
  if s.tarefas.any (fun tarefa => tarefa.id == id) then
    let novas := alternarConcluida id s.tarefas
    { s with tarefas := novas, armazenado := some (serializa novas) }
  else s

/-- Assigning the filter ref (`filtro.value = ...`): `filtro` is not
watched, so no persistence write occurs. -/
def Store.setFiltro (f : Filtro) (s : Store) : Store :=
  { s with filtro := f }

/-- A whole session of `adicionarTarefa` calls, each with the `Date.now()`
reading and the title text of that call. -/
def aplicarAdicoes (tarefas : List Tarefa) : List (Nat × String) → List Tarefa
  | [] => tarefas
  | (now, titulo) :: resto => aplicarAdicoes (adicionarTarefa now titulo tarefas) resto

end TodoVue

/-! ## General lemmas about the embedded operations -/

namespace TodoVue

theorem removerTarefa_eq_eraseP (id : Nat) (l : List Tarefa) :
    removerTarefa id l = l.eraseP (fun t => t.id == id) := by
  induction l with
  | nil => rfl
  | cons t ts ih =>
    by_cases h : t.id == id
    · simp [removerTarefa, acharIndice, h]
    · cases hidx : acharIndice (fun u => u.id == id) ts with
      | none =>
        have hts : removerTarefa id ts = ts := by simp [removerTarefa, hidx]
        have := ih
        rw [hts] at this
        simp [removerTarefa, acharIndice, h, hidx, List.eraseP_cons_of_neg h, ← this]
      | some i =>
        have hts : removerTarefa id ts = ts.take i ++ ts.drop (i + 1) := by
          simp [removerTarefa, hidx]
        simp [removerTarefa, acharIndice, h, hidx, List.eraseP_cons_of_neg h, ← ih, hts]

theorem aplicarAdicoes_ids (l : List Tarefa) (chamadas : List (Nat × String)) :
    List.Sublist ((aplicarAdicoes l chamadas).map Tarefa.id)
      (l.map Tarefa.id ++ chamadas.map Prod.fst) := by
  induction chamadas generalizing l with
  | nil => simp [aplicarAdicoes]
  | cons p resto ih =>
    obtain ⟨now, titulo⟩ := p
    show List.Sublist ((aplicarAdicoes (adicionarTarefa now titulo l) resto).map Tarefa.id) _
    refine (ih _).trans ?_
    by_cases h : jsTrim titulo ≠ ""
    · simp [adicionarTarefa, h]
    · simp only [adicionarTarefa, h, if_neg, ite_false, List.map_cons]
      exact List.Sublist.append_left (List.sublist_cons_self _ _) _

end TodoVue
namespace TodoVue

theorem tiraLiteral_self (lit resto : List Char) :
    tiraLiteral lit (lit ++ resto) = some resto := by
  induction lit with
  | nil => rfl
  | cons c cs ih => simp [tiraLiteral, ih]

theorem digitos_eq (n : Nat) :
    digitos n = if n < 10 then [Char.ofNat (48 + n)]
      else digitos (n / 10) ++ [Char.ofNat (48 + n % 10)] := by
  rw [digitos]

theorem digitChar_isDigit (d : Nat) (h : d < 10) :
    (Char.ofNat (48 + d)).isDigit = true := by
  interval_cases d <;> decide

theorem digitChar_toNat (d : Nat) (h : d < 10) :
    (Char.ofNat (48 + d)).toNat = 48 + d := by
  interval_cases d <;> decide

theorem analisaNatAux_digitos (n : Nat) :
    ∀ (acc : Nat) (resto : List Char),
      analisaNatAux (digitos n ++ resto) acc
        = analisaNatAux resto (acc * 10 ^ (digitos n).length + n) := by
  induction n using Nat.strong_induction_on with
  | _ n ih =>
    intro acc resto
    by_cases h : n < 10
    · rw [digitos_eq, if_pos h]
      simp [analisaNatAux, digitChar_isDigit n h, digitChar_toNat n h]
    · rw [digitos_eq n, if_neg h, List.append_assoc, List.length_append,
        ih (n / 10) (Nat.div_lt_self (by omega) (by omega)) acc _]
      have h10 : n % 10 < 10 := Nat.mod_lt _ (by omega)
      simp only [List.cons_append, List.nil_append, analisaNatAux,
        digitChar_isDigit _ h10, digitChar_toNat _ h10, if_pos]
      congr 1
      rw [List.length_singleton, pow_add, pow_one, ← Nat.mul_assoc]
      have hdm := Nat.div_add_mod n 10
      generalize acc * 10 ^ (digitos (n / 10)).length = A
      omega

theorem digitos_cons (n : Nat) :
    ∃ d ds, digitos n = d :: ds ∧ d.isDigit = true := by
  induction n using Nat.strong_induction_on with
  | _ n ih =>
    by_cases h : n < 10
    · exact ⟨_, _, by rw [digitos_eq, if_pos h], digitChar_isDigit n h⟩
    · obtain ⟨d, ds, hd, hdig⟩ := ih (n / 10) (Nat.div_lt_self (by omega) (by omega))
      exact ⟨d, ds ++ [Char.ofNat (48 + n % 10)],
        by rw [digitos_eq, if_neg h, hd, List.cons_append], hdig⟩

theorem analisaNat_digitos (n : Nat) (c : Char) (resto : List Char)
    (hc : c.isDigit = false) :
    analisaNat (digitos n ++ c :: resto) = some (n, c :: resto) := by
  obtain ⟨d, ds, hd, hdig⟩ := digitos_cons n
  rw [hd, List.cons_append]
  simp only [analisaNat, hdig, if_pos]
  rw [← List.cons_append, ← hd, analisaNatAux_digitos]
  simp [analisaNatAux, hc]

theorem valorHex_hexDigito (m : Nat) (h : m < 16) :
    valorHex (hexDigito m) = m := by
  interval_cases m <;> decide

theorem analisaCorpo_fecha (resto : List Char) :
    analisaCorpoString ('"' :: resto) = some ([], resto) := by
  rw [analisaCorpoString.eq_def]; simp +decide

theorem analisaCorpo_escape (e d : Char) (X : List Char)
    (he : desescapaChar e = some d) (hu : ¬(e = 'u')) :
    analisaCorpoString ('\\' :: e :: X) =
      match analisaCorpoString X with
      | some (corpo, resto) => some (d :: corpo, resto)
      | none => none := by
  rw [analisaCorpoString.eq_def]
  simp +decide [he, hu]

theorem analisaCorpo_hex (X : List Char) (hi lo : Char) :
    analisaCorpoString ('\\' :: 'u' :: '0' :: '0' :: hi :: lo :: X) =
      match analisaCorpoString X with
      | some (corpo, resto) =>
          some (Char.ofNat ((((valorHex '0' * 16 + valorHex '0') * 16 +
            valorHex hi) * 16 + valorHex lo)) :: corpo, resto)
      | none => none := by
  rw [analisaCorpoString.eq_def]; simp +decide

theorem analisaCorpo_comum (c : Char) (X : List Char)
    (h1 : ¬(c = '"')) (h2 : ¬(c = '\\')) :
    analisaCorpoString (c :: X) =
      match analisaCorpoString X with
      | some (corpo, resto) => some (c :: corpo, resto)
      | none => none := by
  rw [analisaCorpoString.eq_def]; simp +decide [h1, h2]

theorem analisaCorpoString_escapa (s resto : List Char) :
    analisaCorpoString (escapaLista s ++ '"' :: resto) = some (s, resto) := by
  induction s with
  | nil => exact analisaCorpo_fecha resto
  | cons c cs ih =>
    show analisaCorpoString ((escapaChar c ++ escapaLista cs) ++ '"' :: resto) = _
    rw [List.append_assoc]
    by_cases h1 : c = '"'
    · subst h1
      simp +decide only [escapaChar, ite_true, ite_false, List.cons_append, List.nil_append]
      rw [analisaCorpo_escape '"' '"' _ (by decide) (by decide), ih]
    by_cases h2 : c = '\\'
    · subst h2
      simp +decide only [escapaChar, ite_true, ite_false, List.cons_append, List.nil_append]
      rw [analisaCorpo_escape '\\' '\\' _ (by decide) (by decide), ih]
    by_cases h3 : c = '\x08'
    · subst h3
      simp +decide only [escapaChar, ite_true, ite_false, List.cons_append, List.nil_append]
      rw [analisaCorpo_escape 'b' '\x08' _ (by decide) (by decide), ih]
    by_cases h4 : c = '\t'
    · subst h4
      simp +decide only [escapaChar, ite_true, ite_false, List.cons_append, List.nil_append]
      rw [analisaCorpo_escape 't' '\t' _ (by decide) (by decide), ih]
    by_cases h5 : c = '\n'
    · subst h5
      simp +decide only [escapaChar, ite_true, ite_false, List.cons_append, List.nil_append]
      rw [analisaCorpo_escape 'n' '\n' _ (by decide) (by decide), ih]
    by_cases h6 : c = '\x0c'
    · subst h6
      simp +decide only [escapaChar, ite_true, ite_false, List.cons_append, List.nil_append]
      rw [analisaCorpo_escape 'f' '\x0c' _ (by decide) (by decide), ih]
    by_cases h7 : c = '\r'
    · subst h7
      simp +decide only [escapaChar, ite_true, ite_false, List.cons_append, List.nil_append]
      rw [analisaCorpo_escape 'r' '\r' _ (by decide) (by decide), ih]
    by_cases h8 : c.toNat < 32
    · simp only [escapaChar, h1, h2, h3, h4, h5, h6, h7, h8,
        ite_false, ite_true, List.cons_append, List.nil_append]
      rw [analisaCorpo_hex, ih]
      have hv : ((((valorHex '0' * 16 + valorHex '0') * 16 +
          valorHex (hexDigito (c.toNat / 16))) * 16 +
          valorHex (hexDigito (c.toNat % 16)))) = c.toNat := by
        rw [valorHex_hexDigito _ (by omega),
          valorHex_hexDigito _ (Nat.mod_lt _ (by omega)),
          show valorHex '0' = 0 from by decide]
        omega
      rw [hv, Char.ofNat_toNat]
    · simp only [escapaChar, h1, h2, h3, h4, h5, h6, h7, h8,
        ite_false, ite_true, List.cons_append, List.nil_append]
      rw [analisaCorpo_comum c _ h1 h2, ih]

theorem analisaBool_serializa (b : Bool) (resto : List Char) :
    analisaBool ((if b then ['t', 'r', 'u', 'e'] else ['f', 'a', 'l', 's', 'e']) ++ resto) =
      some (b, resto) := by
  cases b
  · show analisaBool (['f', 'a', 'l', 's', 'e'] ++ resto) = some (false, resto)
    simp only [analisaBool]
    rw [show tiraLiteral "true".data (['f', 'a', 'l', 's', 'e'] ++ resto) = none from rfl,
      show (['f', 'a', 'l', 's', 'e'] : List Char) ++ resto = "false".data ++ resto from rfl,
      tiraLiteral_self]
  · show analisaBool (['t', 'r', 'u', 'e'] ++ resto) = some (true, resto)
    simp only [analisaBool]
    rw [show (['t', 'r', 'u', 'e'] : List Char) ++ resto = "true".data ++ resto from rfl,
      tiraLiteral_self]

theorem analisaNat_etapa (n : Nat) (B : List Char) :
    analisaNat (digitos n ++
        ([',', '"', 't', 'i', 't', 'u', 'l', 'o', '"', ':', '"'] ++ B)) =
      some (n, [',', '"', 't', 'i', 't', 'u', 'l', 'o', '"', ':', '"'] ++ B) := by
  rw [show ([',', '"', 't', 'i', 't', 'u', 'l', 'o', '"', ':', '"'] : List Char) ++ B =
    ',' :: (['"', 't', 'i', 't', 'u', 'l', 'o', '"', ':', '"'] ++ B) from rfl]
  exact analisaNat_digitos n ',' _ (by decide)

theorem analisaCorpo_etapa (tt C : List Char) :
    analisaCorpoString (escapaLista tt ++
        (['"', ',', '"', 'c', 'o', 'n', 'c', 'l', 'u', 'i', 'd', 'a', '"', ':'] ++ C)) =
      some (tt, [',', '"', 'c', 'o', 'n', 'c', 'l', 'u', 'i', 'd', 'a', '"', ':'] ++ C) := by
  rw [show (['"', ',', '"', 'c', 'o', 'n', 'c', 'l', 'u', 'i', 'd', 'a', '"', ':'] : List Char) ++ C =
    '"' :: ([',', '"', 'c', 'o', 'n', 'c', 'l', 'u', 'i', 'd', 'a', '"', ':'] ++ C) from rfl]
  exact analisaCorpoString_escapa tt _

theorem analisaTarefa_serializa (t : Tarefa) (resto : List Char) :
    analisaTarefa (serializaTarefa t ++ resto) = some (t, resto) := by
  obtain ⟨n, tt, b⟩ := t
  simp only [serializaTarefa, List.append_assoc, analisaTarefa, Option.bind_eq_bind,
    tiraLiteral_self, Option.some_bind, analisaNat_etapa, analisaCorpo_etapa,
    analisaBool_serializa, Option.pure_def]

end TodoVue
namespace TodoVue

theorem serializaTarefa_len (t : Tarefa) : 1 ≤ (serializaTarefa t).length := by
  have h : ("\x7b\"id\":".data : List Char).length = 6 := rfl
  simp [serializaTarefa, List.length_append, h]

theorem serializaLista_len (l : List Tarefa) :
    l.length ≤ (serializaLista l).length := by
  induction l with
  | nil => simp [serializaLista]
  | cons t ts ih =>
    cases ts with
    | nil =>
      have := serializaTarefa_len t
      simp only [serializaLista, List.length_cons, List.length_nil]
      omega
    | cons t2 ts2 =>
      have := serializaTarefa_len t
      simp only [serializaLista, List.length_append, List.length_cons] at *
      omega

theorem analisaItens_serializa (l : List Tarefa) :
    ∀ (combustivel : Nat) (resto : List Char), l ≠ [] →
      l.length ≤ combustivel →
      analisaItens combustivel (serializaLista l ++ ']' :: resto) =
        some (l, resto) := by
  induction l with
  | nil => intro _ _ h; exact absurd rfl h
  | cons t ts ih =>
    intro combustivel resto _ hlen
    cases combustivel with
    | zero => simp at hlen
    | succ f =>
      cases ts with
      | nil =>
        show analisaItens (f + 1) (serializaTarefa t ++ ']' :: resto) = some ([t], resto)
        rw [analisaItens, analisaTarefa_serializa]
        rfl
      | cons t2 ts2 =>
        show analisaItens (f + 1)
          ((serializaTarefa t ++ ',' :: serializaLista (t2 :: ts2)) ++ ']' :: resto) =
            some (t :: t2 :: ts2, resto)
        rw [List.append_assoc, List.cons_append, analisaItens, analisaTarefa_serializa]
        have hr := ih f resto (by simp) (by simp at hlen ⊢; omega)
        simp only [hr]

theorem desserializa_serializa (l : List Tarefa) :
    desserializa (serializa l) = some l := by
  cases l with
  | nil => rfl
  | cons t ts =>
    show desserializa ⟨'[' :: (serializaLista (t :: ts) ++ [']'])⟩ = some (t :: ts)
    have hne : serializaLista (t :: ts) ++ [']'] ≠ [']'] := by
      intro h
      have hl := congrArg List.length h
      have h2 := serializaLista_len (t :: ts)
      have h3 := serializaTarefa_len t
      simp only [List.length_append, List.length_cons, List.length_nil] at hl h2
      omega
    rw [desserializa.eq_def]
    simp only [String.data]
    rw [if_neg hne]
    have hfuel : (t :: ts).length ≤ (serializaLista (t :: ts) ++ [']']).length := by
      have := serializaLista_len (t :: ts)
      simp only [List.length_append]
      omega
    rw [show (serializaLista (t :: ts) ++ [']'] : List Char) =
      serializaLista (t :: ts) ++ ']' :: [] from rfl,
      analisaItens_serializa (t :: ts) _ [] (by simp) hfuel]
    rfl

end TodoVue

/-! ## Claims -/

namespace TodoVue

/-- C1 counterexample: on input `" a"` the trim is the non-empty `"a"`, so a
task is appended — but its stored title is the original `" a"`, not the
trimmed `"a"` the claim requires. -/
theorem C1_contraexemplo :
    (Store.adicionar 7 " a" ⟨[], .todas, none⟩).tarefas = [⟨7, " a", false⟩] ∧
    jsTrim " a" = "a" ∧
    (⟨7, " a", false⟩ : Tarefa).titulo ≠ jsTrim " a" := by
  refine ⟨?_, by decide, by decide⟩
  simp [Store.adicionar, show jsTrim " a" ≠ "" from by decide]

/-- C1 (amended): `adicionarTarefa` appends a task iff the trimmed title is
non-empty, and the appended task stores the original (untrimmed) title;
when the trimmed title is empty the call is a complete no-op: the state,
including the persisted value, is unchanged. -/
theorem C1_adicionar_titulo_original (now : Nat) (titulo : String) (s : Store) :
    (jsTrim titulo ≠ "" →
      s.adicionar now titulo =
        { s with
          tarefas := s.tarefas ++ [{ id := now, titulo := titulo, concluida := false }],
          armazenado := some (serializa (s.tarefas ++
            [{ id := now, titulo := titulo, concluida := false }])) }) ∧
    (jsTrim titulo = "" → s.adicionar now titulo = s) := by
  constructor <;> intro h <;> simp [Store.adicionar, h]

/-- C1 witness: the amended statement evaluated on the empty store and the
title `" a"`. -/
theorem C1_testemunha :
    Store.adicionar 7 " a" ⟨[], .todas, none⟩ =
      { tarefas := [⟨7, " a", false⟩], filtro := .todas,
        armazenado := some (serializa [⟨7, " a", false⟩]) } :=
  (C1_adicionar_titulo_original 7 " a" ⟨[], .todas, none⟩).1 (by decide)

/-- C2 counterexample: the malformed stored value `"x"` does not initialize
an empty collection — the deserialization error propagates — while the
absent value does initialize an empty collection. -/
theorem C2_contraexemplo :
    Store.init (some "x") = Except.error "SyntaxError" ∧
    Store.init none = Except.ok ⟨[], .todas, none⟩ := by
  constructor <;> rfl

/-- C2 (amended): on initialization, a missing key — or an empty stored
string, which JavaScript `||` also replaces — yields the empty collection
with no error; a value the store itself persisted (the canonical
serialization of any collection) is restored successfully; data that is
not valid JSON, such as `"x"`, raises a `SyntaxError` that surfaces to the
caller instead of being treated like absent data. -/
theorem C2_init_recuperacao (armazenado : Option String) (l : List Tarefa) :
    (armazenado = none ∨ armazenado = some "" →
      Store.init armazenado = .ok ⟨[], .todas, armazenado⟩) ∧
    (armazenado = some (serializa l) →
      Store.init armazenado = .ok ⟨l, .todas, armazenado⟩) ∧
    Store.init (some "x") = .error "SyntaxError" := by
  refine ⟨?_, ?_, rfl⟩
  · rintro (rfl | rfl) <;> rfl
  · rintro rfl
    have hne : serializa l ≠ "" := by
      intro h
      have hd := congrArg String.data h
      simp [serializa] at hd
    simp [Store.init, ouArrayVazio, hne, desserializa_serializa]

/-- C2 witness: the amended statement evaluated at the absent stored value
and at a concrete self-persisted value. -/
theorem C2_testemunha :
    Store.init none = .ok ⟨[], .todas, none⟩ ∧
    Store.init (some (serializa [⟨3, "a", false⟩])) =
      .ok ⟨[⟨3, "a", false⟩], .todas, some (serializa [⟨3, "a", false⟩])⟩ :=
  ⟨(C2_init_recuperacao none []).1 (Or.inl rfl),
    (C2_init_recuperacao (some (serializa [⟨3, "a", false⟩]))
      [⟨3, "a", false⟩]).2.1 rfl⟩

/-- C3 counterexample: two `adicionarTarefa` calls that observe the same
`Date.now()` reading produce two tasks with the same id, so ids are not
unique. -/
theorem C3_contraexemplo :
    ((aplicarAdicoes [] [(5, "a"), (5, "b")]).map Tarefa.id) = [5, 5] ∧
    ¬ (((aplicarAdicoes [] [(5, "a"), (5, "b")]).map Tarefa.id).Pairwise (· ≠ ·)) := by
  decide

/-- C3 (amended): for a sequence of `adicionarTarefa` calls on an initially
empty collection whose clock readings strictly increase, the resulting ids
are strictly increasing in creation order and pairwise distinct; equal
clock readings (two calls in the same millisecond) break uniqueness. -/
theorem C3_ids_crescentes (chamadas : List (Nat × String))
    (h : (chamadas.map Prod.fst).Pairwise (· < ·)) :
    ((aplicarAdicoes [] chamadas).map Tarefa.id).Pairwise (· < ·) ∧
    ((aplicarAdicoes [] chamadas).map Tarefa.id).Pairwise (· ≠ ·) := by
  have hs := aplicarAdicoes_ids [] chamadas
  simp only [List.map_nil, List.nil_append] at hs
  exact ⟨h.sublist hs, (h.sublist hs).imp Nat.ne_of_lt⟩

/-- C3 witness: the amended statement evaluated on two calls with strictly
increasing clock readings. -/
theorem C3_testemunha :
    ((aplicarAdicoes [] [(1, "a"), (2, "b")]).map Tarefa.id).Pairwise (· < ·) ∧
    ((aplicarAdicoes [] [(1, "a"), (2, "b")]).map Tarefa.id).Pairwise (· ≠ ·) :=
  C3_ids_crescentes [(1, "a"), (2, "b")] (by decide)

/-- C4: for every collection, membership in the `ativas` view or in the
`concluidas` view is equivalent to membership in the `todas` view, and the
two views are disjoint. -/
theorem C4_particao_filtros (l : List Tarefa) :
    (∀ t, (t ∈ tarefasFiltradas .ativas l ∨ t ∈ tarefasFiltradas .concluidas l) ↔
      t ∈ tarefasFiltradas .todas l) ∧
    (∀ t, t ∈ tarefasFiltradas .ativas l → t ∉ tarefasFiltradas .concluidas l) := by
  constructor <;> intro t <;>
    simp [tarefasFiltradas, List.mem_filter] <;>
    cases h : t.concluida <;> simp_all

/-- C4 witness: disjointness evaluated on a concrete two-task collection. -/
theorem C4_testemunha :
    (⟨1, "a", false⟩ : Tarefa) ∉
      tarefasFiltradas .concluidas [⟨1, "a", false⟩, ⟨2, "b", true⟩] :=
  (C4_particao_filtros [⟨1, "a", false⟩, ⟨2, "b", true⟩]).2 ⟨1, "a", false⟩ (by decide)

/-- C5: `tarefasFiltradas` is a pure function of collection and filter:
under `todas` it is the collection itself, under `ativas` the subsequence of
tasks with `concluida = false`, under `concluidas` the subsequence with
`concluida = true`, each a sublist (order preserved) with the expected
membership. -/
theorem C5_filtragem_pura (l : List Tarefa) :
    tarefasFiltradas .todas l = l ∧
    tarefasFiltradas .ativas l = l.filter (fun t => !t.concluida) ∧
    tarefasFiltradas .concluidas l = l.filter (fun t => t.concluida) ∧
    List.Sublist (tarefasFiltradas .ativas l) l ∧
    List.Sublist (tarefasFiltradas .concluidas l) l ∧
    (∀ t, t ∈ tarefasFiltradas .ativas l ↔ t ∈ l ∧ t.concluida = false) ∧
    (∀ t, t ∈ tarefasFiltradas .concluidas l ↔ t ∈ l ∧ t.concluida = true) := by
  refine ⟨rfl, rfl, rfl, List.filter_sublist l, List.filter_sublist l, ?_, ?_⟩ <;>
    intro t <;> simp [tarefasFiltradas, List.mem_filter]

/-- C5 witness: the membership characterization evaluated on a concrete
collection. -/
theorem C5_testemunha :
    (⟨1, "a", false⟩ : Tarefa) ∈
      tarefasFiltradas .ativas [⟨1, "a", false⟩, ⟨2, "b", true⟩] :=
  ((C5_filtragem_pura [⟨1, "a", false⟩, ⟨2, "b", true⟩]).2.2.2.2.2.1
    ⟨1, "a", false⟩).mpr (by decide)

/-- C6: removing an id that no task carries leaves the collection unchanged
(and is not an error, the operation being total); when some task carries
the id, the collection splits as `l1 ++ t :: l2` with `t` carrying exactly
that id and the result is `l1 ++ l2` — a task with the id is the one
removed — so the length drops by one and the rest stays a sublist. -/
theorem C6_remover_ausente_identidade (id : Nat) (l : List Tarefa) :
    ((∀ t ∈ l, t.id ≠ id) → removerTarefa id l = l) ∧
    ((∃ t ∈ l, t.id = id) →
      ∃ (l1 l2 : List Tarefa) (t : Tarefa), t.id = id ∧ l = l1 ++ t :: l2 ∧
        removerTarefa id l = l1 ++ l2 ∧
        (removerTarefa id l).length + 1 = l.length ∧
        List.Sublist (removerTarefa id l) l) := by
  rw [removerTarefa_eq_eraseP]
  constructor
  · intro h
    exact List.eraseP_of_forall_not (fun t ht => by simp [h t ht])
  · rintro ⟨t, ht, hid⟩
    obtain ⟨a, l1, l2, _, hpa, hdecomp, herase⟩ :=
      List.exists_of_eraseP ht (p := fun u => u.id == id) (by simp [hid])
    refine ⟨l1, l2, a, by simpa using hpa, hdecomp, herase, ?_,
      List.eraseP_sublist l⟩
    rw [herase, hdecomp]
    simp [List.length_append]
    omega

/-- C6 witness: both branches evaluated on concrete collections. -/
theorem C6_testemunha :
    removerTarefa 5 [⟨1, "a", false⟩] = [⟨1, "a", false⟩] ∧
    (∃ (l1 l2 : List Tarefa) (t : Tarefa), t.id = 2 ∧
      ([⟨1, "a", false⟩, ⟨2, "b", true⟩] : List Tarefa) = l1 ++ t :: l2 ∧
      removerTarefa 2 [⟨1, "a", false⟩, ⟨2, "b", true⟩] = l1 ++ l2 ∧
      (removerTarefa 2 [⟨1, "a", false⟩, ⟨2, "b", true⟩]).length + 1 =
        ([⟨1, "a", false⟩, ⟨2, "b", true⟩] : List Tarefa).length ∧
      List.Sublist (removerTarefa 2 [⟨1, "a", false⟩, ⟨2, "b", true⟩])
        [⟨1, "a", false⟩, ⟨2, "b", true⟩]) :=
  ⟨(C6_remover_ausente_identidade 5 [⟨1, "a", false⟩]).1 (by decide),
    (C6_remover_ausente_identidade 2 [⟨1, "a", false⟩, ⟨2, "b", true⟩]).2
      (by decide)⟩

/-- C7: after a state-changing add, remove, or toggle, the value persisted
under the task key is the serialization of the full current collection;
setting the filter changes only the filter and never writes to the
persistent store. -/
theorem C7_sincronizacao_persistencia (s : Store) (now : Nat) (titulo : String)
    (f : Filtro) (id1 id2 : Nat) :
    ((s.adicionar now titulo).tarefas ≠ s.tarefas →
      (s.adicionar now titulo).armazenado
        = some (serializa (s.adicionar now titulo).tarefas)) ∧
    ((s.remover id1).tarefas ≠ s.tarefas →
      (s.remover id1).armazenado = some (serializa (s.remover id1).tarefas)) ∧
    ((s.alternar id2).tarefas ≠ s.tarefas →
      (s.alternar id2).armazenado = some (serializa (s.alternar id2).tarefas)) ∧
    ((s.setFiltro f).filtro = f ∧ (s.setFiltro f).tarefas = s.tarefas ∧
      (s.setFiltro f).armazenado = s.armazenado) := by
  refine ⟨?_, ?_, ?_, rfl, rfl, rfl⟩
  · intro h
    by_cases ht : jsTrim titulo ≠ "" <;> simp [Store.adicionar, ht] at h ⊢
  · intro h
    cases hidx : acharIndice (fun tarefa => tarefa.id == id1) s.tarefas <;>
      simp [Store.remover, hidx] at h ⊢
  · intro h
    by_cases ha : s.tarefas.any (fun tarefa => tarefa.id == id2) <;>
      simp [Store.alternar, ha] at h ⊢

/-- C7 witness: the add branch evaluated on the empty store. -/
theorem C7_testemunha :
    (Store.adicionar 3 "a" ⟨[], .todas, none⟩).armazenado
      = some (serializa (Store.adicionar 3 "a" ⟨[], .todas, none⟩).tarefas) :=
  (C7_sincronizacao_persistencia ⟨[], .todas, none⟩ 3 "a" .todas 0 0).1 (by decide)

/-- C8: when the trimmed title is non-empty, the added task has
`concluida = false`, is the last element of the collection, appears in the
`todas` and `ativas` views, and every previously present task stays in
place (the new collection is the old one with the task appended). -/
theorem C8_adicionar_garantias (now : Nat) (titulo : String) (l : List Tarefa)
    (h : jsTrim titulo ≠ "") :
    ∃ nova : Tarefa,
      adicionarTarefa now titulo l = l ++ [nova] ∧
      nova.concluida = false ∧
      (adicionarTarefa now titulo l).getLast? = some nova ∧
      nova ∈ tarefasFiltradas .todas (adicionarTarefa now titulo l) ∧
      nova ∈ tarefasFiltradas .ativas (adicionarTarefa now titulo l) := by
  refine ⟨⟨now, titulo, false⟩, ?_, rfl, ?_, ?_, ?_⟩ <;>
    simp [adicionarTarefa, h, tarefasFiltradas, List.mem_filter]

/-- C8 witness: the statement evaluated on the empty collection and a
non-blank title. -/
theorem C8_testemunha :
    ∃ nova : Tarefa,
      adicionarTarefa 3 "leite" [] = [] ++ [nova] ∧
      nova.concluida = false ∧
      (adicionarTarefa 3 "leite" []).getLast? = some nova ∧
      nova ∈ tarefasFiltradas .todas (adicionarTarefa 3 "leite" []) ∧
      nova ∈ tarefasFiltradas .ativas (adicionarTarefa 3 "leite" []) :=
  C8_adicionar_garantias 3 "leite" [] (by decide)

/-- C9: serializing a task collection, deserializing the result, and
serializing again yields exactly the first serialized string. -/
theorem C9_roundtrip_idempotente (l : List Tarefa) :
    (desserializa (serializa l)).map serializa = some (serializa l) := by
  rw [desserializa_serializa]
  rfl

/-- C10: `removerTarefa` removes at most one task per call — exactly the
first task carrying the id, so duplicates further right survive — and the
relative order of the remaining tasks is preserved (the result is a
sublist); with no matching task it is the identity. -/
theorem C10_remover_primeira_ocorrencia (id : Nat) (l l1 l2 : List Tarefa)
    (t : Tarefa) :
    List.Sublist (removerTarefa id l) l ∧
    ((∀ u ∈ l, u.id ≠ id) → removerTarefa id l = l) ∧
    (l = l1 ++ t :: l2 → (∀ u ∈ l1, u.id ≠ id) → t.id = id →
      removerTarefa id l = l1 ++ l2) := by
  rw [removerTarefa_eq_eraseP]
  refine ⟨List.eraseP_sublist l, ?_, ?_⟩
  · intro h
    exact List.eraseP_of_forall_not (fun u hu => by simp [h u hu])
  · rintro rfl h1 hid
    rw [List.eraseP_append_right _ (fun u hu => by simp [h1 u hu]),
      List.eraseP_cons_of_pos (by simp [hid])]

/-- C10 witness: on a collection with two tasks sharing id 1, only the
first is removed and the duplicate survives. -/
theorem C10_testemunha :
    removerTarefa 1 [⟨1, "a", false⟩, ⟨1, "b", false⟩] = [] ++ [⟨1, "b", false⟩] :=
  (C10_remover_primeira_ocorrencia 1 [⟨1, "a", false⟩, ⟨1, "b", false⟩]
    [] [⟨1, "b", false⟩] ⟨1, "a", false⟩).2.2 rfl (by decide) rfl

end TodoVue
